import Mathlib

/-!
Verification of the media organizer core (media_organizer.py) via a shallow
embedding.  Paths are modelled as (directory string, stem, extension) triples,
the filesystem as a map from paths to `Option (Option (List Nat))`
(`none` = no file, `some none` = present but unreadable, `some (some bs)` =
readable content `bs`), and the content digest as an abstract function
parameter `hash : List Nat → Nat`.  External-tool probe outcomes (exiftool,
PIL, hachoir, the device pattern database, directory walks, the behaviour of
shutil.copy2) are supplied by an environment record, since they depend on the
machine state outside the program.
-/

/-- Characters replaced by `_` in `_sanitize_folder_name` (regex class). -/
def badFolderChar (c : Char) : Bool :=
  c = '<' || c = '>' || c = ':' || c = '"' || c = '/' || c = '\\' || c = '|' || c = '?' || c = '*'

/-- Python `str.lower` restricted to ASCII case mapping. -/
def lowerStr (s : String) : String := ⟨s.data.map Char.toLower⟩

/-- Python `str.upper` restricted to ASCII case mapping. -/
def upperStr (s : String) : String := ⟨s.data.map Char.toUpper⟩

/-- Python `str.strip()` (whitespace at both ends). -/
def trimStr (s : String) : String :=
  ⟨((s.data.dropWhile Char.isWhitespace).reverse.dropWhile Char.isWhitespace).reverse⟩

/-- Occurrence of `needle` as a contiguous sub-list (Python `needle in hay`). -/
def listHasSub (needle : List Char) : List Char → Bool
  | [] => needle.isPrefixOf ([] : List Char)
  | c :: rest => needle.isPrefixOf (c :: rest) || listHasSub needle rest

/-- Python `needle in hay` on strings. -/
def subStr (needle hay : String) : Bool := listHasSub needle.data hay.data

/-- Python `s.startswith(pre)`. -/
def startsWithStr (s pre : String) : Bool := pre.data.isPrefixOf s.data

/-- Python `s.endswith(suf)`. -/
def endsWithStr (s suf : String) : Bool := suf.data.isSuffixOf s.data

/-- `_sanitize_folder_name`: replace characters unsuitable for directory names,
keep at most 80 characters, empty or blank input becomes the unknown-device
sentinel. -/
def sanitizeFolderName (name : String) : String :=
  if (trimStr name).data = [] then "未知设备"
  else
    let s : String := ⟨(trimStr name).data.map (fun c => if badFolderChar c then '_' else c)⟩
    if s.data.length > 80 then ⟨s.data.take 80⟩ else s

/-- Character class of `re.sub` in `_build_unified_basename`: the folder-name
class plus whitespace; runs are collapsed to a single underscore. -/
def unifiedBadChar (c : Char) : Bool := badFolderChar c || c.isWhitespace

def collapseRunsAux (prevBad : Bool) : List Char → List Char
  | [] => []
  | c :: rest =>
    if unifiedBadChar c then
      if prevBad then collapseRunsAux true rest
      else '_' :: collapseRunsAux true rest
    else c :: collapseRunsAux false rest

def collapseRuns (s : String) : String := ⟨collapseRunsAux false s.data⟩

def stripUnderscoreEnds (l : List Char) : List Char :=
  ((l.dropWhile (fun c => c = '_')).reverse.dropWhile (fun c => c = '_')).reverse

def joinUnderscore : List String → String
  | [] => ""
  | [x] => x
  | x :: y :: xs => x ++ "_" ++ joinUnderscore (y :: xs)

/-- `MediaOrganizer._build_unified_basename`. -/
def buildUnifiedBasename (device dateStr resolutionStr fpsStr : String) : String :=
  let safe := if (collapseRuns (trimStr device)).data = [] then "未知设备" else collapseRuns (trimStr device)
  let dateSafe := if (collapseRuns (trimStr dateStr)).data = [] then "无日期" else collapseRuns (trimStr dateStr)
  let resTrim := trimStr resolutionStr
  let fpsTrim := trimStr fpsStr
  let parts := [safe, dateSafe]
    ++ (if resTrim.data ≠ [] ∧ resTrim ≠ "未知" then [collapseRuns resTrim] else [])
    ++ (if fpsTrim.data ≠ [] then [collapseRuns fpsTrim] else [])
  ⟨(stripUnderscoreEnds (joinUnderscore parts).data).take 120⟩

/-- Built-in IMAGE_EXTENSIONS. -/
def imageExtensionsDefault : List String :=
  [".jpg", ".jpeg", ".png", ".heic", ".heif", ".gif", ".bmp", ".webp",
   ".raw", ".cr2", ".nef", ".arw", ".dng"]

/-- Built-in VIDEO_EXTENSIONS. -/
def videoExtensionsDefault : List String :=
  [".mp4", ".mov", ".mkv", ".avi", ".wmv", ".webm", ".m4v", ".3gp",
   ".mpg", ".mpeg", ".mts", ".360", ".insv", ".lrf", ".osv"]

/-- Built-in AUDIO_EXTENSIONS. -/
def audioExtensionsDefault : List String :=
  [".mp3", ".m4a", ".wav", ".aac", ".flac", ".ogg", ".wma"]

/-- Built-in PANORAMIC_EXTENSIONS. -/
def panoramicExtensions : List String := [".360", ".insv", ".osv"]

/-- The configuration keys consumed by the organizer core. -/
structure OrgConfig where
  imageExtensions : List String
  videoExtensions : List String
  audioExtensions : List String
  leaveInPlaceExtensions : List String
  relatedSameStem : Bool
  deviceUnknownName : String
  imageSubfolder : String
  videoSubfolder : String
  audioSubfolder : String
  panoramicSubfolder : String
  deviceSubfolder : Bool
  duplicateStrategy : String
  useExiftool : Bool
  unifiedNaming : Bool
  deleteEmptyFolders : Bool
deriving DecidableEq

/-- `MediaOrganizer.__init__`: `self.image_ext` (configured, lower-cased). -/
def orgImageExt (cfg : OrgConfig) : List String := cfg.imageExtensions.map lowerStr

/-- `MediaOrganizer.__init__`: `self.video_ext` is the configured list
lower-cased, union the built-in VIDEO_EXTENSIONS. -/
def orgVideoExt (cfg : OrgConfig) : List String :=
  cfg.videoExtensions.map lowerStr ++ videoExtensionsDefault.map lowerStr

/-- `MediaOrganizer.__init__`: `self.audio_ext`. -/
def orgAudioExt (cfg : OrgConfig) : List String := cfg.audioExtensions.map lowerStr

/-- `MediaOrganizer.__init__`: `self.leave_ext`. -/
def orgLeaveExt (cfg : OrgConfig) : List String := cfg.leaveInPlaceExtensions.map lowerStr

/-- A filesystem path split as pathlib sees it: parent directory (a plain
string), stem, and suffix (the extension, dot included). -/
structure MPath where
  dir : String
  stem : String
  ext : String
deriving DecidableEq

/-- pathlib `name` = stem + suffix. -/
def MPath.name (p : MPath) : String := p.stem ++ p.ext

/-- `MediaOrganizer.should_leave_in_place`. -/
def shouldLeaveInPlace (cfg : OrgConfig) (p : MPath) : Bool :=
  lowerStr p.ext ∈ orgLeaveExt cfg ||
  (subStr "." p.name && (endsWithStr (lowerStr p.name) ".fg.op" || endsWithStr (lowerStr p.name) ".fg.ed"))

/-- `_is_panoramic_by_path`, applied as the organizer does with
`self.video_ext` and PANORAMIC_EXTENSIONS. -/
def isPanoramicByPath (cfg : OrgConfig) (p : MPath) : Bool :=
  let ext := lowerStr p.ext
  if ext ∈ panoramicExtensions then true
  else if ext ∈ orgVideoExt cfg then
    let nm := lowerStr p.stem
    subStr "360" nm || subStr "panoram" nm || subStr "theta" nm || subStr "insta360" nm
  else false

/-- `MediaOrganizer.get_media_type`.  `panoMeta` is the outcome the
exiftool-based `_is_panoramic_by_metadata` probe would report for this file. -/
def getMediaType (cfg : OrgConfig) (panoMeta : Bool) (p : MPath) : Option String :=
  let ext := lowerStr p.ext
  if ext ∈ orgImageExt cfg then some "image"
  else if ext ∈ orgAudioExt cfg then some "audio"
  else if ext ∈ orgVideoExt cfg then
    if isPanoramicByPath cfg p then some "panoramic_video"
    else if cfg.useExiftool && panoMeta then some "panoramic_video"
    else some "video"
  else none

/-- Environment response to the `shutil.copy2` step of the verified copy:
either the call returned and `bytes` is what actually landed at the
destination (`none` = file present but unreadable), or it raised an
exception with message `msg`, leaving state `residue` at the destination
(`none` = nothing was written, `some c` = an incomplete file). -/
inductive CopyBehavior where
  | landed (bytes : Option (List Nat))
  | raised (msg : String) (residue : Option (Option (List Nat)))
deriving DecidableEq

/-- Filesystem files: `none` = absent, `some none` = unreadable,
`some (some bs)` = readable content. Directories are tracked separately. -/
structure World where
  files : MPath → Option (Option (List Nat))
  dirs : List String

/-- `Path.mkdir(parents=True, exist_ok=True)` on a directory name. -/
def mkdirDir (w : World) (d : String) : World :=
  if d ∈ w.dirs then w else { w with dirs := d :: w.dirs }

/-- Machine/OS-dependent inputs of one organizer run: probe outcomes per
file, the directory enumeration produced by os.walk / iterdir, path
resolution, and the behaviour of the copy syscalls. -/
structure ProbeEnv where
  panoMeta : MPath → Bool
  dateStr : MPath → String → Option String
  pillowDevice : MPath → String
  exiftoolMake : MPath → String
  exiftoolModel : MPath → String
  patternDevice : MPath → Option String
  resolutionOf : MPath → String → Option (Nat × Nat)
  frameRateOf : MPath → String → String
  realpath : MPath → MPath
  walk : List MPath
  listDir : String → List MPath
  copyBehavior : MPath → MPath → CopyBehavior
  otherCopyErr : MPath → MPath → Option String
  sourceValid : Bool
  keepDir : String → Bool

/-- `MediaOrganizer.get_device`.  The probes (PIL EXIF, exiftool Make/Model,
the device pattern database) are environment inputs; the DJI short-circuit
and sanitization are the program logic. -/
def getDevice (cfg : OrgConfig) (env : ProbeEnv) (p : MPath) (mediaType : String) : String :=
  let unknown := cfg.deviceUnknownName
  if mediaType = "image" ∨ mediaType = "video" ∨ mediaType = "panoramic_video" then
    if subStr "DJI" (upperStr p.stem) || subStr "大疆" p.stem then "大疆"
    else if (mediaType = "video" ∨ mediaType = "panoramic_video") ∧ lowerStr p.ext = ".lrf" then "大疆"
    else if mediaType = "image" then
      let dev0 := env.pillowDevice p
      let dev := if dev0 = "" ∧ cfg.useExiftool then
          trimStr (trimStr (env.exiftoolMake p) ++ " " ++ trimStr (env.exiftoolModel p))
        else dev0
      if dev ≠ "" then sanitizeFolderName dev
      else match env.patternDevice p with
        | some d => sanitizeFolderName d
        | none => unknown
    else
      let dev := if cfg.useExiftool then
          trimStr (trimStr (env.exiftoolMake p) ++ " " ++ trimStr (env.exiftoolModel p))
        else ""
      if dev ≠ "" then sanitizeFolderName dev
      else match env.patternDevice p with
        | some d => sanitizeFolderName d
        | none => unknown
  else unknown

/-- `MediaOrganizer.build_target_dir`: output_root / date / kind-subfolder
[/ sanitized device]. -/
def buildTargetDir (cfg : OrgConfig) (mediaType device dateStr outputRoot : String) : String :=
  let sub := if mediaType = "image" then cfg.imageSubfolder
    else if mediaType = "panoramic_video" then cfg.panoramicSubfolder
    else if mediaType = "video" then cfg.videoSubfolder
    else cfg.audioSubfolder
  let p := outputRoot ++ "/" ++ dateStr ++ "/" ++ sub
  if cfg.deviceSubfolder ∧ (mediaType = "image" ∨ mediaType = "video" ∨ mediaType = "panoramic_video")
  then p ++ "/" ++ sanitizeFolderName device
  else p

/-- `MediaOrganizer.find_related_files`: siblings in the primary's directory
whose stem equals the primary's, or extends it by an underscore- or
space-delimited tail (in either direction). -/
def findRelatedFiles (cfg : OrgConfig) (env : ProbeEnv) (w : World) (primary : MPath) : List MPath :=
  if !cfg.relatedSameStem then []
  else (env.listDir primary.dir).filter (fun f =>
    (w.files f).isSome && !(f == primary) && !shouldLeaveInPlace cfg f &&
    (f.stem == primary.stem
     || startsWithStr primary.stem (f.stem ++ "_") || startsWithStr f.stem (primary.stem ++ "_")
     || startsWithStr primary.stem (f.stem ++ " ") || startsWithStr f.stem (primary.stem ++ " ")))

/-- Candidate name `{stem}_{i}{ext}` in the target directory. -/
def suffixName (targetDir stem ext : String) (i : Nat) : MPath :=
  ⟨targetDir, stem ++ "_" ++ Nat.repr i, ext⟩

/-- The `for i in range(1, 9999)` suffix probe of `resolve_destination`:
returns the first candidate not present, and, when the fuel runs out, the
last candidate tried even though it is occupied. -/
def probeLoop (exbl : MPath → Bool) (targetDir stem ext : String) : Nat → Nat → MPath
  | i, 0 => suffixName targetDir stem ext (i - 1)
  | i, fuel + 1 =>
    if exbl (suffixName targetDir stem ext i) then probeLoop exbl targetDir stem ext (i + 1) fuel
    else suffixName targetDir stem ext i

/-- `MediaOrganizer.resolve_destination`.  `exbl` is `Path.exists` on the
current filesystem and `rp` is `Path.resolve` (same-entity test).  The Python
signature declares `Optional[Path]`, mirrored here. -/
def chosenStem (filepath : MPath) (unifiedBasename : Option String) : String :=
  match unifiedBasename with | some u => u | none => filepath.stem

def resolveDestination (cfg : OrgConfig) (exbl : MPath → Bool) (rp : MPath → MPath)
    (targetDir : String) (filepath : MPath) (unifiedBasename : Option String) : Option MPath :=
  let stem := chosenStem filepath unifiedBasename
  let dest : MPath := ⟨targetDir, stem, filepath.ext⟩
  if exbl dest then
    if rp dest = rp filepath then some dest
    else if cfg.duplicateStrategy = "overwrite" then some dest
    else some (probeLoop exbl targetDir stem filepath.ext 1 9998)
  else some dest

/-- The regex `^\d{4}-\d{2}-\d{2}$` used on the first path component under
the output root (digits restricted to ASCII). -/
def isDateName (s : String) : Bool :=
  match s.data with
  | [a, b, c, d, e, f, g, h, i, j] =>
    a.isDigit && b.isDigit && c.isDigit && d.isDigit && e == '-' &&
    f.isDigit && g.isDigit && h == '-' && i.isDigit && j.isDigit
  | _ => false

/-- `Path.relative_to` on resolved paths given as component lists:
defined when the root is a component-wise leading part, the ValueError
branch is `none`. -/
def relParts (fileRes outRes : List String) : Option (List String) :=
  if outRes.isPrefixOf fileRes then some (fileRes.drop outRes.length) else none

/-- Outcome of the already-processed check at the head of
`MediaOrganizer.process_file`. -/
inductive ProcessedDecision where
  | skipAlready
  | rerun
deriving DecidableEq

/-- The head of `MediaOrganizer.process_file`: a file whose resolved path is
in the processed set is skipped (action already_processed) exactly when its
location relative to the resolved output root has at least three components,
the first matches the date regex, and the third differs from the sanitized
unknown-device name; otherwise it falls through to the full pipeline. -/
def processFileAlreadyCheck (processed : List String) (pathKey : String)
    (fileRes outRes : List String) (unknownRaw : String) : ProcessedDecision :=
  let unknownDev := sanitizeFolderName unknownRaw
  if pathKey ∈ processed then
    match relParts fileRes outRes with
    | some parts =>
      if parts ≠ [] ∧ 3 ≤ parts.length ∧ isDateName (parts.headD "") = true then
        if parts.getD 2 "" ≠ unknownDev then ProcessedDecision.skipAlready
        else ProcessedDecision.rerun
      else ProcessedDecision.rerun
    | none => ProcessedDecision.rerun
  else ProcessedDecision.rerun

/-- Pointwise filesystem update. -/
def fsSet (fs : MPath → Option (Option (List Nat))) (p : MPath) (v : Option (Option (List Nat))) :
    MPath → Option (Option (List Nat)) :=
  fun q => if q = p then v else fs q

/-- `_compute_file_hash`: `none` when the file is absent or reading fails,
otherwise the digest of its content. -/
def computeFileHash (hash : List Nat → Nat) (fs : MPath → Option (Option (List Nat))) (p : MPath) :
    Option Nat :=
  match fs p with
  | none => none
  | some none => none
  | some (some bs) => some (hash bs)

/-- `MediaOrganizer._copy_file_with_hash_verify` as a filesystem transformer:
result is (new filesystem, success flag, failure reason).  Deletion via
`unlink(missing_ok=True)` is modelled as succeeding.  Note the exception
branch of the copy step performs no deletion: the destination is left in
whatever state `residue` the failed copy produced. -/
def copyFileWithHashVerify (hash : List Nat → Nat) (fs : MPath → Option (Option (List Nat)))
    (src dest : MPath) (dryRun : Bool) (cb : CopyBehavior) :
    (MPath → Option (Option (List Nat))) × Bool × Option String :=
  if dryRun then (fs, true, none)
  else match computeFileHash hash fs src with
  | none => (fs, false, some "无法计算源文件哈希")
  | some srcHash =>
    match cb with
    | CopyBehavior.raised msg residue => (fsSet fs dest residue, false, some msg)
    | CopyBehavior.landed bytes =>
      let fs1 := fsSet fs dest (some bytes)
      match computeFileHash hash fs1 dest with
      | none => (fsSet fs1 dest none, false, some "无法计算目标文件哈希")
      | some destHash =>
        if srcHash = destHash then (fs1, true, none)
        else (fsSet fs1 dest none, false, some "哈希校验失败")

/-- Per-run accumulator of `super_copy_and_organize`: counters plus the
report lists, and the set of source paths successfully copied. -/
structure CopyStats where
  ok : Nat
  fail : Nat
  skip : Nat
  mediaOk : List (MPath × MPath)
  mediaSkip : List (MPath × String)
  mediaFail : List (MPath × String)
  otherOk : List String
  otherFail : List (String × String)
  copied : List MPath
deriving DecidableEq

def emptyStats : CopyStats := ⟨0, 0, 0, [], [], [], [], [], []⟩

/-- Date-folder string for a file: formatted shoot date, or the no-date
sentinel when every date probe failed. -/
def planDateStr (env : ProbeEnv) (fp : MPath) (mt : String) : String :=
  match env.dateStr fp mt with | some s => s | none => "无日期"

/-- Target directory computed for a classified file in the copy pipeline. -/
def planTargetDir (cfg : OrgConfig) (env : ProbeEnv) (target : String) (fp : MPath) (mt : String) :
    String :=
  buildTargetDir cfg mt (getDevice cfg env fp mt) (planDateStr env fp mt) target

/-- `f"{w}x{h}" if (w and h) else ""`. -/
def resString : Option (Nat × Nat) → String
  | some (w, h) => if w ≠ 0 ∧ h ≠ 0 then Nat.repr w ++ "x" ++ Nat.repr h else ""
  | none => ""

/-- The unified basename computed for a primary file (None when unified
naming is off). -/
def planUB (cfg : OrgConfig) (env : ProbeEnv) (fp : MPath) (mt : String) : Option String :=
  if cfg.unifiedNaming then
    some (buildUnifiedBasename (getDevice cfg env fp mt) (planDateStr env fp mt)
      (resString (env.resolutionOf fp mt)) (env.frameRateOf fp mt))
  else none

/-- `_copy_file_with_hash_verify` lifted to the world: creates the
destination's parent directory before the copy step (the copy behaviour is
consulted only then). -/
def worldCopyVerify (hash : List Nat → Nat) (env : ProbeEnv) (w : World) (src dest : MPath)
    (dryRun : Bool) : World × Bool × Option String :=
  if dryRun then (w, true, none)
  else match computeFileHash hash w.files src with
  | none => (w, false, some "无法计算源文件哈希")
  | some _ =>
    let w1 := mkdirDir w dest.dir
    let r := copyFileWithHashVerify hash w1.files src dest false (env.copyBehavior src dest)
    ({ w1 with files := r.1 }, r.2.1, r.2.2)

/-- The related-file sub-loop of `super_copy_and_organize`: failures are
recorded in media_fail but do not touch the fail counter, and never stop
the loop. -/
def relatedLoop (hash : List Nat → Nat) (cfg : OrgConfig) (env : ProbeEnv)
    (targetDir : String) (ub : Option String) (dryRun : Bool) :
    World → CopyStats → List MPath → World × CopyStats
  | w, st, [] => (w, st)
  | w, st, r :: rs =>
    match resolveDestination cfg (fun p => (w.files p).isSome) env.realpath targetDir r ub with
    | none => relatedLoop hash cfg env targetDir ub dryRun w st rs
    | some rdest =>
      let res := worldCopyVerify hash env w r rdest dryRun
      if res.2.1 then
        relatedLoop hash cfg env targetDir ub dryRun res.1
          { st with ok := st.ok + 1, mediaOk := st.mediaOk ++ [(r, rdest)],
                    copied := st.copied ++ [env.realpath r] } rs
      else
        relatedLoop hash cfg env targetDir ub dryRun res.1
          { st with mediaFail := st.mediaFail ++ [(r, res.2.2.getD "")] } rs

/-- The per-file media loop of `super_copy_and_organize`: classify, place,
hash-verified copy, then the related files; every failure is recorded and
the loop moves to the next file. -/
def mediaLoop (hash : List Nat → Nat) (cfg : OrgConfig) (env : ProbeEnv) (target : String)
    (dryRun : Bool) : World → CopyStats → List MPath → World × CopyStats
  | w, st, [] => (w, st)
  | w, st, fp :: rest =>
    match getMediaType cfg (env.panoMeta fp) fp with
    | none => mediaLoop hash cfg env target dryRun w { st with skip := st.skip + 1 } rest
    | some mt =>
      let targetDir := planTargetDir cfg env target fp mt
      let ub := planUB cfg env fp mt
      match resolveDestination cfg (fun p => (w.files p).isSome) env.realpath targetDir fp ub with
      | none =>
        mediaLoop hash cfg env target dryRun w
          { st with skip := st.skip + 1, mediaSkip := st.mediaSkip ++ [(fp, "已存在")] } rest
      | some pd =>
        let res := worldCopyVerify hash env w fp pd dryRun
        if res.2.1 then
          let st1 := { st with ok := st.ok + 1, mediaOk := st.mediaOk ++ [(fp, pd)],
                               copied := st.copied ++ [env.realpath fp] }
          let wst := relatedLoop hash cfg env targetDir ub dryRun res.1 st1
            (findRelatedFiles cfg env res.1 fp)
          mediaLoop hash cfg env target dryRun wst.1 wst.2 rest
        else
          mediaLoop hash cfg env target dryRun res.1
            { st with fail := st.fail + 1, mediaFail := st.mediaFail ++ [(fp, res.2.2.getD "")] } rest

/-- `_collect_media_files_recursive`: walk the source tree, keep regular
files that are not leave-in-place and classify as some media kind. -/
def collectMediaFiles (cfg : OrgConfig) (env : ProbeEnv) (w : World) : List MPath :=
  env.walk.filter (fun p =>
    (w.files p).isSome && !shouldLeaveInPlace cfg p && (getMediaType cfg (env.panoMeta p) p).isSome)

/-- `sorted(collected, key=lambda x: (x.parent, x.name))`: true when `a`
sorts no later than `b`. -/
def pathLe (a b : MPath) : Bool :=
  decide (a.dir < b.dir) || (a.dir == b.dir && !decide (b.name < a.name))

def insertSorted (x : MPath) : List MPath → List MPath
  | [] => [x]
  | y :: ys => if pathLe x y then x :: y :: ys else y :: insertSorted x ys

/-- Stable sort used before deduplication. -/
def sortPaths : List MPath → List MPath
  | [] => []
  | x :: xs => insertSorted x (sortPaths xs)

/-- Deduplication by (parent, stem); the first occurrence in sorted order
wins. -/
def dedupByDirStem : List MPath → List (String × String) → List MPath
  | [], _ => []
  | p :: rest, seen =>
    if (p.dir, p.stem) ∈ seen then dedupByDirStem rest seen
    else p :: dedupByDirStem rest ((p.dir, p.stem) :: seen)

/-- `f.relative_to(source)` reduced to the directory part: the remainder of
`dir` after the source root, `none` for the ValueError case. -/
def stripSourceDir (source dir : String) : Option String :=
  if dir = source then some ""
  else if (source ++ "/").data.isPrefixOf dir.data then some ⟨dir.data.drop (source.data.length + 1)⟩
  else none

/-- The residual-file sweep list of `super_copy_and_organize`: every walked
file not successfully copied and not leave-in-place, paired with its
relative path string and its destination under the overflow directory. -/
def otherFilesList (cfg : OrgConfig) (env : ProbeEnv) (source target : String)
    (copied : List MPath) : List (MPath × String × MPath) :=
  env.walk.filterMap (fun f =>
    if env.realpath f ∈ copied then none
    else if shouldLeaveInPlace cfg f then none
    else match stripSourceDir source f.dir with
      | none => none
      | some rem =>
        let relStr := (if rem.data = [] then "" else rem ++ "/") ++ f.name
        let destDir := target ++ "/其他文件" ++ (if rem.data = [] then "" else "/" ++ rem)
        some (f, relStr, ⟨destDir, f.stem, f.ext⟩))

/-- The overflow copy loop: verbatim copy2 of each residual file (content at
the destination becomes the source content on success); failures are
recorded and the loop continues; dry-run only reports. -/
def otherFilesLoop (env : ProbeEnv) (dryRun : Bool) :
    World → CopyStats → List (MPath × String × MPath) → World × CopyStats
  | w, st, [] => (w, st)
  | w, st, (f, relStr, destFile) :: rest =>
    if dryRun then
      otherFilesLoop env dryRun w { st with ok := st.ok + 1, otherOk := st.otherOk ++ [relStr] } rest
    else
      let w1 := mkdirDir w destFile.dir
      match env.otherCopyErr f destFile with
      | none =>
        otherFilesLoop env dryRun { w1 with files := fsSet w1.files destFile (w1.files f) }
          { st with ok := st.ok + 1, otherOk := st.otherOk ++ [relStr] } rest
      | some e =>
        otherFilesLoop env dryRun w1 { st with otherFail := st.otherFail ++ [(relStr, e)] } rest

/-- `MediaOrganizer.super_copy_and_organize` as a world transformer.  Note
the target root directory is created before the dry-run flag is ever
consulted.  The final empty-folder pruning (guarded by not-dry-run and the
config flag) removes directories only, abstracted by the `keepDir`
predicate; it never touches files. -/
def superCopyAndOrganize (hash : List Nat → Nat) (cfg : OrgConfig) (env : ProbeEnv)
    (w0 : World) (source target : String) (dryRun : Bool) : World × CopyStats :=
  if !env.sourceValid then (w0, emptyStats)
  else
    let w1 := mkdirDir w0 target
    let toProcess := dedupByDirStem (sortPaths (collectMediaFiles cfg env w1)) []
    if toProcess.isEmpty then (w1, emptyStats)
    else
      let wst := mediaLoop hash cfg env target dryRun w1 emptyStats toProcess
      let wst2 := otherFilesLoop env dryRun wst.1 wst.2
        (otherFilesList cfg env source target wst.2.copied)
      if !dryRun && cfg.deleteEmptyFolders then
        ({ wst2.1 with dirs := wst2.1.dirs.filter env.keepDir }, wst2.2)
      else (wst2.1, wst2.2)

/-- Outcome of `json.loads` on exiftool stdout, as far as `_exiftool_get`
inspects it: a decode failure (caught), a value that is falsy or whose
first element is not a dict (handled, empty result), or the first element's
items (values `none` model JSON null). -/
inductive ExifParse where
  | decodeError
  | notListOfDict
  | entries (es : List (String × Option String))
deriving DecidableEq

/-- Outcome of the `subprocess.run` call in `_exiftool_get`.  The except
clause catches exactly FileNotFoundError, TimeoutExpired and
JSONDecodeError; `raisedOther` models any other exception the call can
raise (for example PermissionError when the binary is not executable). -/
inductive SubprocOutcome where
  | fileNotFound
  | timeoutExpired
  | raisedOther (exc : String)
  | completed (returncode : Int) (stdoutEmpty : Bool) (parse : ExifParse)
deriving DecidableEq

/-- `_exiftool_get` in an exception monad: `Except.error` is an exception
escaping to the caller, `Except.ok` the returned tag dictionary. -/
def exiftoolGet (useExiftool : Bool) (pathExists : Bool) (out : SubprocOutcome) :
    Except String (List (String × String)) :=
  if !useExiftool || !pathExists then Except.ok []
  else match out with
  | SubprocOutcome.fileNotFound => Except.ok []
  | SubprocOutcome.timeoutExpired => Except.ok []
  | SubprocOutcome.raisedOther exc => Except.error exc
  | SubprocOutcome.completed rc sEmpty parse =>
    if rc ≠ 0 ∨ sEmpty = true then Except.ok []
    else match parse with
      | ExifParse.decodeError => Except.ok []
      | ExifParse.notListOfDict => Except.ok []
      | ExifParse.entries es => Except.ok (es.filterMap (fun kv =>
          match kv.2 with
          | none => none
          | some v => if (trimStr v).data = [] then none else some (kv.1, trimStr v)))

/-- `dict.get(k, "")` on the tag dictionary. -/
def dictGet (m : List (String × String)) (k : String) : String :=
  match m.find? (fun kv => kv.1 == k) with
  | some kv => kv.2
  | none => ""

/-- Python `str.isdigit` (ASCII digits). -/
def isDigitStr (s : String) : Bool := !s.data.isEmpty && s.data.all Char.isDigit

/-- `int` on a digit string. -/
def natOfDigitStr (s : String) : Nat := s.data.foldl (fun a c => a * 10 + (c.toNat - 48)) 0

/-- Probe inputs of `_get_resolution`: the PIL attempt (all its exceptions
are caught, so one Option suffices), the subprocess outcome of the exiftool
helper, and the hachoir attempt (likewise fully caught). -/
structure ResolutionEnv where
  pillow : Option (Nat × Nat)
  sub : SubprocOutcome
  hachoir : Option (Nat × Nat)
deriving DecidableEq

/-- `_get_resolution` in the exception monad: PIL for images, then the
exiftool tags (whose uncaught exceptions propagate), then hachoir for
videos. -/
def getResolutionE (mediaType : String) (useExiftool : Bool) (pathExists : Bool)
    (env : ResolutionEnv) : Except String (Option (Nat × Nat)) :=
  match (if mediaType = "image" then env.pillow else none) with
  | some wh => Except.ok (some wh)
  | none =>
    let step2 : Except String (Option (Nat × Nat)) :=
      if useExiftool then
        match exiftoolGet true pathExists env.sub with
        | Except.error e => Except.error e
        | Except.ok m =>
          let wv1 := trimStr (dictGet m "ImageWidth")
          let hv1 := trimStr (dictGet m "ImageHeight")
          if isDigitStr wv1 && isDigitStr hv1 then
            Except.ok (some (natOfDigitStr wv1, natOfDigitStr hv1))
          else
            let wv2 := trimStr (dictGet m "VideoFrameWidth")
            let hv2 := trimStr (dictGet m "VideoFrameHeight")
            if isDigitStr wv2 && isDigitStr hv2 then
              Except.ok (some (natOfDigitStr wv2, natOfDigitStr hv2))
            else Except.ok none
      else Except.ok none
    match step2 with
    | Except.error e => Except.error e
    | Except.ok (some wh) => Except.ok (some wh)
    | Except.ok none =>
      if mediaType = "video" ∨ mediaType = "panoramic_video" then Except.ok env.hachoir
      else Except.ok none

lemma mkdirDir_files (w : World) (d : String) : (mkdirDir w d).files = w.files := by
  unfold mkdirDir; split <;> rfl

lemma resolveDestination_isSome (cfg : OrgConfig) (exbl : MPath → Bool) (rp : MPath → MPath)
    (targetDir : String) (filepath : MPath) (ub : Option String) :
    (resolveDestination cfg exbl rp targetDir filepath ub).isSome = true := by
  unfold resolveDestination
  dsimp only
  split
  · split
    · rfl
    · split <;> rfl
  · rfl

lemma probeLoop_all_taken (exbl : MPath → Bool) (td stem ext : String) :
    ∀ (fuel i : Nat), (∀ j, i ≤ j → j < i + fuel → exbl (suffixName td stem ext j) = true) →
      probeLoop exbl td stem ext i fuel = suffixName td stem ext (i + fuel - 1) := by
  intro fuel
  induction fuel with
  | zero => intro i _; simp [probeLoop]
  | succ n ih =>
    intro i h
    have hi : exbl (suffixName td stem ext i) = true := h i (Nat.le_refl i) (by omega)
    simp only [probeLoop, hi, if_true]
    rw [ih (i + 1) (fun j hj1 hj2 => h j (by omega) (by omega))]
    congr 1
    omega

lemma probeLoop_first_free (exbl : MPath → Bool) (td stem ext : String) :
    ∀ (fuel i : Nat),
      (∃ j, i ≤ j ∧ j < i + fuel ∧ exbl (suffixName td stem ext j) = false) →
      ∃ j, i ≤ j ∧ j < i + fuel ∧ exbl (suffixName td stem ext j) = false ∧
        (∀ k, i ≤ k → k < j → exbl (suffixName td stem ext k) = true) ∧
        probeLoop exbl td stem ext i fuel = suffixName td stem ext j := by
  intro fuel
  induction fuel with
  | zero => rintro i ⟨j, h1, h2, _⟩; omega
  | succ n ih =>
    rintro i ⟨j, hij, hlt, hfree⟩
    by_cases hc : exbl (suffixName td stem ext i) = true
    · have hij' : i + 1 ≤ j := by
        rcases Nat.eq_or_lt_of_le hij with h | h
        · rw [← h] at hfree; rw [hc] at hfree; exact absurd hfree (by simp)
        · omega
      obtain ⟨j', h1, h2, h3, h4, h5⟩ := ih (i + 1) ⟨j, hij', by omega, hfree⟩
      refine ⟨j', by omega, by omega, h3, ?_, ?_⟩
      · intro k hk1 hk2
        rcases Nat.eq_or_lt_of_le hk1 with h | h
        · rw [← h]; exact hc
        · exact h4 k (by omega) hk2
      · simp only [probeLoop, hc, if_true]; exact h5
    · have hc' : exbl (suffixName td stem ext i) = false := by
        revert hc; cases exbl (suffixName td stem ext i) <;> simp
      exact ⟨i, Nat.le_refl i, by omega, hc', fun k hk1 hk2 => by omega,
        by simp only [probeLoop, hc', Bool.false_eq_true, if_false]⟩

lemma relatedLoop_mediaSkip (hash : List Nat → Nat) (cfg : OrgConfig) (env : ProbeEnv)
    (td : String) (ub : Option String) (dry : Bool) :
    ∀ (rs : List MPath) (w : World) (st : CopyStats),
      ((relatedLoop hash cfg env td ub dry w st rs).2).mediaSkip = st.mediaSkip := by
  intro rs
  induction rs with
  | nil => intro w st; rfl
  | cons r rest ih =>
    intro w st
    simp only [relatedLoop]
    split
    · exact ih _ _
    · split
      · exact ih _ _
      · exact ih _ _

lemma mediaLoop_mediaSkip (hash : List Nat → Nat) (cfg : OrgConfig) (env : ProbeEnv)
    (target : String) (dry : Bool) :
    ∀ (l : List MPath) (w : World) (st : CopyStats),
      ((mediaLoop hash cfg env target dry w st l).2).mediaSkip = st.mediaSkip := by
  intro l
  induction l with
  | nil => intro w st; rfl
  | cons fp rest ih =>
    intro w st
    simp only [mediaLoop]
    split
    · exact ih _ _
    · rename_i mt hmt
      split
      · next heq =>
        exfalso
        have h := resolveDestination_isSome cfg (fun p => (w.files p).isSome) env.realpath
          (planTargetDir cfg env target fp mt) fp (planUB cfg env fp mt)
        rw [heq] at h
        simp at h
      · split
        · rw [ih]
          exact relatedLoop_mediaSkip hash cfg env _ _ dry _ _ _
        · exact ih _ _

/-- C9: `resolve_destination` always returns an actual path (its `Optional`
result is never the absent value), and consequently the mediaSkip
("already exists") branch of the copy pipeline's per-file loop is
unreachable: the media_skip report list never grows, so no classified file
is dropped from placement because its destination name was taken. -/
theorem c9_resolve_never_none :
    (∀ (cfg : OrgConfig) (exbl : MPath → Bool) (rp : MPath → MPath) (td : String) (fp : MPath)
       (ub : Option String), (resolveDestination cfg exbl rp td fp ub).isSome = true) ∧
    (∀ (hash : List Nat → Nat) (cfg : OrgConfig) (env : ProbeEnv) (target : String) (dry : Bool)
       (w : World) (st : CopyStats) (l : List MPath),
       ((mediaLoop hash cfg env target dry w st l).2).mediaSkip = st.mediaSkip) :=
  ⟨resolveDestination_isSome,
   fun hash cfg env target dry w st l => mediaLoop_mediaSkip hash cfg env target dry l w st⟩

/-- C2 (amended): the collision policy of `resolve_destination`: a free
candidate is used as is; an occupied candidate that is the same filesystem
entity as the source is returned unchanged; "overwrite" returns the
occupied candidate; otherwise ("skip"/"rename") the first free name among
the suffixes _1 to _9998 is returned when one exists (it is tried in
strictly increasing order, is free, and differs from the occupied
candidate); when every suffix in that range is occupied, the last probed
name _9998 is returned even though it is occupied. -/
theorem c2_resolve_destination_cases (cfg : OrgConfig) (exbl : MPath → Bool) (rp : MPath → MPath)
    (td : String) (fp : MPath) (ub : Option String) :
    (exbl ⟨td, chosenStem fp ub, fp.ext⟩ = false →
      resolveDestination cfg exbl rp td fp ub = some ⟨td, chosenStem fp ub, fp.ext⟩) ∧
    (exbl ⟨td, chosenStem fp ub, fp.ext⟩ = true →
      rp ⟨td, chosenStem fp ub, fp.ext⟩ = rp fp →
      resolveDestination cfg exbl rp td fp ub = some ⟨td, chosenStem fp ub, fp.ext⟩) ∧
    (exbl ⟨td, chosenStem fp ub, fp.ext⟩ = true →
      cfg.duplicateStrategy = "overwrite" →
      resolveDestination cfg exbl rp td fp ub = some ⟨td, chosenStem fp ub, fp.ext⟩) ∧
    (exbl ⟨td, chosenStem fp ub, fp.ext⟩ = true →
      rp ⟨td, chosenStem fp ub, fp.ext⟩ ≠ rp fp →
      cfg.duplicateStrategy ≠ "overwrite" →
      (∃ j, 1 ≤ j ∧ j ≤ 9998 ∧ exbl (suffixName td (chosenStem fp ub) fp.ext j) = false) →
      ∃ j, 1 ≤ j ∧ j ≤ 9998 ∧ exbl (suffixName td (chosenStem fp ub) fp.ext j) = false ∧
        (∀ k, 1 ≤ k → k < j → exbl (suffixName td (chosenStem fp ub) fp.ext k) = true) ∧
        resolveDestination cfg exbl rp td fp ub = some (suffixName td (chosenStem fp ub) fp.ext j) ∧
        suffixName td (chosenStem fp ub) fp.ext j ≠ ⟨td, chosenStem fp ub, fp.ext⟩) ∧
    (exbl ⟨td, chosenStem fp ub, fp.ext⟩ = true →
      rp ⟨td, chosenStem fp ub, fp.ext⟩ ≠ rp fp →
      cfg.duplicateStrategy ≠ "overwrite" →
      (∀ j, 1 ≤ j → j ≤ 9998 → exbl (suffixName td (chosenStem fp ub) fp.ext j) = true) →
      resolveDestination cfg exbl rp td fp ub = some (suffixName td (chosenStem fp ub) fp.ext 9998)) := by
  refine ⟨?_, ?_, ?_, ?_, ?_⟩
  · intro h
    simp [resolveDestination, h]
  · intro h1 h2
    simp [resolveDestination, h1, h2]
  · intro h1 h2
    by_cases h3 : rp ⟨td, chosenStem fp ub, fp.ext⟩ = rp fp
    · simp [resolveDestination, h1, h3]
    · simp [resolveDestination, h1, h2, h3]
  · intro h1 h2 h3 hex
    obtain ⟨j, hj1, hj2, hj3⟩ := hex
    obtain ⟨j', k1, k2, k3, k4, k5⟩ :=
      probeLoop_first_free exbl td (chosenStem fp ub) fp.ext 9998 1 ⟨j, hj1, by omega, hj3⟩
    refine ⟨j', k1, by omega, k3, k4, ?_, ?_⟩
    · simp [resolveDestination, h1, h2, h3, k5]
    · intro e
      rw [e] at k3
      rw [h1] at k3
      exact absurd k3 (by simp)
  · intro h1 h2 h3 hall
    have hp := probeLoop_all_taken exbl td (chosenStem fp ub) fp.ext 9998 1
      (fun j hj1 hj2 => hall j hj1 (by omega))
    simp [resolveDestination, h1, h2, h3, hp]

/-- The default configuration (config.json defaults from `Config.load_config`). -/
def cfgDefault : OrgConfig :=
  ⟨imageExtensionsDefault, videoExtensionsDefault, audioExtensionsDefault,
   [".op", ".ed", ".lrprev", ".lock"], true, "未知设备",
   "图片", "视频", "音频", "全景视频", true, "rename", true, true, false⟩

/-- C2 counterexample: a filesystem in which every name is occupied.  With
the default "rename" strategy and a distinct source, `resolve_destination`
returns the last probed suffix name `X_9998.jpg`, which is occupied — so
the returned name does collide with an existing file, and it is not a free
name. -/
theorem c2_counterexample :
    resolveDestination cfgDefault (fun _ => true) id "t" ⟨"s", "X", ".jpg"⟩ none
      = some ⟨"t", "X_9998", ".jpg"⟩ ∧
    (fun _ => (true : Bool)) (⟨"t", "X_9998", ".jpg"⟩ : MPath) = true := by
  have hp := probeLoop_all_taken (fun _ => true) "t" "X" ".jpg" 9998 1 (fun j _ _ => rfl)
  refine ⟨?_, rfl⟩
  have h1 : resolveDestination cfgDefault (fun _ => true) id "t" ⟨"s", "X", ".jpg"⟩ none
      = some (probeLoop (fun _ => true) "t" "X" ".jpg" 1 9998) := by
    simp only [resolveDestination, chosenStem]
    rw [if_pos trivial, if_neg (by decide), if_neg (by decide)]
  rw [h1, hp]
  rfl

/-- Occupancy for the C2 witness: the candidate and its first suffix are
taken, `X_2.jpg` is free. -/
def c2ex : MPath → Bool :=
  fun p => decide (p = ⟨"t", "X", ".jpg"⟩) || decide (p = ⟨"t", "X_1", ".jpg"⟩)

/-- C2 witness: concrete run of the amended collision policy, finding the
first free suffix `_2`. -/
theorem c2_resolve_destination_witness :
    ∃ j, 1 ≤ j ∧ j ≤ 9998 ∧ c2ex (suffixName "t" "X" ".jpg" j) = false ∧
      (∀ k, 1 ≤ k → k < j → c2ex (suffixName "t" "X" ".jpg" k) = true) ∧
      resolveDestination cfgDefault c2ex id "t" ⟨"s", "X", ".jpg"⟩ none
        = some (suffixName "t" "X" ".jpg" j) ∧
      suffixName "t" "X" ".jpg" j ≠ ⟨"t", "X", ".jpg"⟩ :=
  (c2_resolve_destination_cases cfgDefault c2ex id "t" ⟨"s", "X", ".jpg"⟩ none).2.2.2.1
    (by decide) (by decide) (by decide) ⟨2, by decide, by decide, by decide⟩

/-- C1: for the non-dry-run hash-verified copy of a single file: success
implies the digests of source and destination agree in the resulting
filesystem; an undigestable source fails with a reason and leaves the
filesystem untouched (no copy is made); an undigestable destination or a
digest mismatch after the copy fails with a reason and deletes the
destination copy. -/
theorem c1_hash_verify (hash : List Nat → Nat) (fs : MPath → Option (Option (List Nat)))
    (src dest : MPath) (cb : CopyBehavior) :
    ((copyFileWithHashVerify hash fs src dest false cb).2.1 = true →
      (copyFileWithHashVerify hash fs src dest false cb).2.2 = none ∧
      ∃ d, computeFileHash hash (copyFileWithHashVerify hash fs src dest false cb).1 src = some d ∧
           computeFileHash hash (copyFileWithHashVerify hash fs src dest false cb).1 dest = some d) ∧
    (computeFileHash hash fs src = none →
      (copyFileWithHashVerify hash fs src dest false cb).2.1 = false ∧
      ((copyFileWithHashVerify hash fs src dest false cb).2.2).isSome = true ∧
      (copyFileWithHashVerify hash fs src dest false cb).1 = fs) ∧
    (∀ bytes srcH, cb = CopyBehavior.landed bytes →
      computeFileHash hash fs src = some srcH →
      computeFileHash hash (fsSet fs dest (some bytes)) dest ≠ some srcH →
      (copyFileWithHashVerify hash fs src dest false cb).2.1 = false ∧
      ((copyFileWithHashVerify hash fs src dest false cb).2.2).isSome = true ∧
      (copyFileWithHashVerify hash fs src dest false cb).1 dest = none) := by
  refine ⟨?_, ?_, ?_⟩
  · intro hok
    cases hsrc : computeFileHash hash fs src with
    | none => rw [show copyFileWithHashVerify hash fs src dest false cb = (fs, false, some "无法计算源文件哈希") from by
        simp [copyFileWithHashVerify, hsrc]] at hok; exact absurd hok (by simp)
    | some srcH =>
      cases cb with
      | raised msg residue =>
        rw [show copyFileWithHashVerify hash fs src dest false (CopyBehavior.raised msg residue)
            = (fsSet fs dest residue, false, some msg) from by simp [copyFileWithHashVerify, hsrc]] at hok
        exact absurd hok (by simp)
      | landed bytes =>
        cases hdest : computeFileHash hash (fsSet fs dest (some bytes)) dest with
        | none =>
          rw [show copyFileWithHashVerify hash fs src dest false (CopyBehavior.landed bytes)
              = (fsSet (fsSet fs dest (some bytes)) dest none, false, some "无法计算目标文件哈希") from by
            simp [copyFileWithHashVerify, hsrc, hdest]] at hok
          exact absurd hok (by simp)
        | some d =>
          by_cases he : srcH = d
          · have hr : copyFileWithHashVerify hash fs src dest false (CopyBehavior.landed bytes)
                = (fsSet fs dest (some bytes), true, none) := by
              simp [copyFileWithHashVerify, hsrc, hdest, he]
            have hsrc2 : computeFileHash hash (fsSet fs dest (some bytes)) src = some d := by
              by_cases hsd : src = dest
              · rw [hsd]; exact hdest
              · have : computeFileHash hash (fsSet fs dest (some bytes)) src
                    = computeFileHash hash fs src := by
                  simp [computeFileHash, fsSet, hsd]
                rw [this, hsrc, he]
            exact ⟨by rw [hr], d, by rw [hr]; exact hsrc2, by rw [hr]; exact hdest⟩
          · rw [show copyFileWithHashVerify hash fs src dest false (CopyBehavior.landed bytes)
                = (fsSet (fsSet fs dest (some bytes)) dest none, false, some "哈希校验失败") from by
              simp [copyFileWithHashVerify, hsrc, hdest, he]] at hok
            exact absurd hok (by simp)
  · intro h
    refine ⟨?_, ?_, ?_⟩ <;> simp [copyFileWithHashVerify, h]
  · intro bytes srcH hcb hsrc hne
    subst hcb
    cases hdest : computeFileHash hash (fsSet fs dest (some bytes)) dest with
    | none =>
      refine ⟨?_, ?_, ?_⟩ <;> simp [copyFileWithHashVerify, hsrc, hdest, fsSet]
    | some d =>
      have hnd : ¬(srcH = d) := fun e => hne (by rw [hdest, e])
      refine ⟨?_, ?_, ?_⟩ <;> simp [copyFileWithHashVerify, hsrc, hdest, hnd, fsSet]

def c1Src : MPath := ⟨"s", "a", ".mp4"⟩

def c1Dest : MPath := ⟨"t", "a", ".mp4"⟩

def c1Fs : MPath → Option (Option (List Nat)) :=
  fun p => if p = c1Src then some (some [1, 2]) else none

/-- C1 witness: a concrete copy whose landed bytes digest differently from
the source: the operation fails with a reason and the destination is
deleted. -/
theorem c1_hash_verify_witness :
    (copyFileWithHashVerify (fun l => l.length) c1Fs c1Src c1Dest false
        (CopyBehavior.landed (some [9]))).2.1 = false ∧
    ((copyFileWithHashVerify (fun l => l.length) c1Fs c1Src c1Dest false
        (CopyBehavior.landed (some [9]))).2.2).isSome = true ∧
    (copyFileWithHashVerify (fun l => l.length) c1Fs c1Src c1Dest false
        (CopyBehavior.landed (some [9]))).1 c1Dest = none :=
  (c1_hash_verify (fun l => l.length) c1Fs c1Src c1Dest (CopyBehavior.landed (some [9]))).2.2
    (some [9]) 2 rfl (by decide) (by decide)

/-- A configuration whose three configured extension lists are all empty. -/
def cfgEmptyExt : OrgConfig :=
  ⟨[], [], [], [], true, "未知设备", "图片", "视频", "音频", "全景视频", true, "rename", true, true, false⟩

/-- C4 counterexample: `.mp4` lies outside all three configured extension
lists (they are empty here), yet classification yields video, because the
classifier's video set also contains the built-in defaults. -/
theorem c4_counterexample :
    (lowerStr ".mp4" ∉ cfgEmptyExt.imageExtensions.map lowerStr) ∧
    (lowerStr ".mp4" ∉ cfgEmptyExt.videoExtensions.map lowerStr) ∧
    (lowerStr ".mp4" ∉ cfgEmptyExt.audioExtensions.map lowerStr) ∧
    getMediaType cfgEmptyExt false ⟨"s", "a", ".mp4"⟩ = some "video" := by
  refine ⟨by decide, by decide, by decide, by decide⟩

/-- C4 (amended): a file whose lower-cased extension is outside the
configured image and audio sets and outside the classifier's effective
video set (configured video extensions union the built-in defaults)
classifies as none, and is excluded from the collected media list of the
scan, for every probe environment and filesystem. -/
theorem c4_unmatched_extension (cfg : OrgConfig) (p : MPath) :
    lowerStr p.ext ∉ orgImageExt cfg →
    lowerStr p.ext ∉ orgAudioExt cfg →
    lowerStr p.ext ∉ orgVideoExt cfg →
    (∀ pm : Bool, getMediaType cfg pm p = none) ∧
    (∀ (env : ProbeEnv) (w : World), p ∉ collectMediaFiles cfg env w) := by
  intro h1 h2 h3
  have hmt : ∀ pm : Bool, getMediaType cfg pm p = none := by
    intro pm
    simp only [getMediaType]
    rw [if_neg h1, if_neg h2, if_neg h3]
  refine ⟨hmt, ?_⟩
  intro env w hmem
  rcases List.mem_filter.mp hmem with ⟨_, hpred⟩
  rw [hmt (env.panoMeta p)] at hpred
  simp at hpred

/-- C4 witness: a `.txt` file under the default configuration. -/
theorem c4_unmatched_extension_witness :
    (∀ pm : Bool, getMediaType cfgDefault pm ⟨"s", "notes", ".txt"⟩ = none) ∧
    (∀ (env : ProbeEnv) (w : World), (⟨"s", "notes", ".txt"⟩ : MPath) ∉ collectMediaFiles cfgDefault env w) :=
  c4_unmatched_extension cfgDefault ⟨"s", "notes", ".txt"⟩ (by decide) (by decide) (by decide)

/-- C10: the classifier's video extension set contains every built-in
default video extension whatever the configured list says; hence a file
with a built-in video extension that is outside the configured image and
audio sets classifies as video or panoramic-video. -/
theorem c10_builtin_video_union :
    (∀ (cfg : OrgConfig) (e : String), e ∈ videoExtensionsDefault → lowerStr e ∈ orgVideoExt cfg) ∧
    (∀ (cfg : OrgConfig) (p : MPath) (pm : Bool),
      lowerStr p.ext ∈ videoExtensionsDefault.map lowerStr →
      lowerStr p.ext ∉ orgImageExt cfg →
      lowerStr p.ext ∉ orgAudioExt cfg →
      ∃ k, getMediaType cfg pm p = some k ∧ (k = "video" ∨ k = "panoramic_video")) := by
  constructor
  · intro cfg e he
    unfold orgVideoExt
    exact List.mem_append.mpr (Or.inr (List.mem_map.mpr ⟨e, he, rfl⟩))
  · intro cfg p pm hv h1 h2
    have hv' : lowerStr p.ext ∈ orgVideoExt cfg := List.mem_append.mpr (Or.inr hv)
    simp only [getMediaType]
    rw [if_neg h1, if_neg h2, if_pos hv']
    by_cases hp : isPanoramicByPath cfg p = true
    · exact ⟨"panoramic_video", by rw [if_pos hp], Or.inr rfl⟩
    · rw [if_neg hp]
      by_cases hq : (cfg.useExiftool && pm) = true
      · exact ⟨"panoramic_video", by rw [if_pos hq], Or.inr rfl⟩
      · exact ⟨"video", by rw [if_neg hq], Or.inl rfl⟩

/-- The default configuration with the configured video extension list
emptied. -/
def cfgNoVideo : OrgConfig :=
  ⟨imageExtensionsDefault, [], audioExtensionsDefault, [".op", ".ed", ".lrprev", ".lock"],
   true, "未知设备", "图片", "视频", "音频", "全景视频", true, "rename", true, true, false⟩

/-- C10 witness: `.mp4` removed from the configured video list still
classifies as video. -/
theorem c10_builtin_video_union_witness :
    ∃ k, getMediaType cfgNoVideo false ⟨"s", "a", ".mp4"⟩ = some k ∧
      (k = "video" ∨ k = "panoramic_video") :=
  c10_builtin_video_union.2 cfgNoVideo ⟨"s", "a", ".mp4"⟩ false (by decide) (by decide) (by decide)

/-- C8: device inference short-circuits to the drone brand: any image,
video or panoramic-video file whose stem contains the DJI marker
(case-insensitively, or the CJK brand name) is attributed to the brand for
every probe environment — no metadata and no pattern database is consulted —
and so is every video or panoramic-video file with extension `.lrf`. -/
theorem c8_dji_short_circuit (cfg : OrgConfig) (env : ProbeEnv) (p : MPath) (mt : String) :
    ((mt = "image" ∨ mt = "video" ∨ mt = "panoramic_video") →
      (subStr "DJI" (upperStr p.stem) = true ∨ subStr "大疆" p.stem = true) →
      getDevice cfg env p mt = "大疆") ∧
    ((mt = "video" ∨ mt = "panoramic_video") →
      lowerStr p.ext = ".lrf" →
      getDevice cfg env p mt = "大疆") := by
  constructor
  · intro hmt hdji
    unfold getDevice
    rw [if_pos hmt]
    have hb : (subStr "DJI" (upperStr p.stem) || subStr "大疆" p.stem) = true := by
      rcases hdji with h | h <;> simp [h]
    rw [if_pos hb]
  · intro hmt hlrf
    unfold getDevice
    rw [if_pos (Or.inr hmt)]
    by_cases hdji : (subStr "DJI" (upperStr p.stem) || subStr "大疆" p.stem) = true
    · rw [if_pos hdji]
    · rw [if_neg hdji, if_pos ⟨hmt, hlrf⟩]

/-- A probe environment reporting a different camera everywhere: embedded
metadata says Canon EOS, the pattern database says GoPro. -/
def envAdversarial : ProbeEnv :=
  ⟨fun _ => false, fun _ _ => none, fun _ => "Canon EOS", fun _ => "Canon", fun _ => "EOS",
   fun _ => some "GoPro", fun _ _ => none, fun _ _ => "", id, [], fun _ => [],
   fun _ _ => CopyBehavior.landed none, fun _ _ => none, true, fun _ => true⟩

/-- C8 witness: `DJI_0012.MOV` and a `.lrf` file are attributed to the
drone brand despite adversarial metadata. -/
theorem c8_dji_short_circuit_witness :
    getDevice cfgDefault envAdversarial ⟨"card", "DJI_0012", ".MOV"⟩ "video" = "大疆" ∧
    getDevice cfgDefault envAdversarial ⟨"card", "clip", ".lrf"⟩ "video" = "大疆" :=
  ⟨(c8_dji_short_circuit cfgDefault envAdversarial ⟨"card", "DJI_0012", ".MOV"⟩ "video").1
      (Or.inr (Or.inl rfl)) (Or.inl (by decide)),
   (c8_dji_short_circuit cfgDefault envAdversarial ⟨"card", "clip", ".lrf"⟩ "video").2
      (Or.inl rfl) (by decide)⟩

/-- C5: a file whose resolved path is recorded in the processed set is
skipped as already_processed exactly when its location relative to the
resolved output root exists (the file is under the root), has at least
three components, starts with a date-shaped component, and its third
component (the device folder) differs from the sanitized unknown-device
sentinel; in every other case it is re-run through the full pipeline. -/
theorem c5_already_processed_iff (processed : List String) (pathKey : String)
    (fileRes outRes : List String) (unknownRaw : String) :
    pathKey ∈ processed →
    (processFileAlreadyCheck processed pathKey fileRes outRes unknownRaw
        = ProcessedDecision.skipAlready
      ↔ ∃ parts, relParts fileRes outRes = some parts ∧ 3 ≤ parts.length ∧
          isDateName (parts.headD "") = true ∧ parts.getD 2 "" ≠ sanitizeFolderName unknownRaw) := by
  intro hmem
  simp only [processFileAlreadyCheck]
  rw [if_pos hmem]
  cases hrel : relParts fileRes outRes with
  | none =>
    simp
  | some parts =>
    dsimp only
    by_cases hc : parts ≠ [] ∧ 3 ≤ parts.length ∧ isDateName (parts.headD "") = true
    · rw [if_pos hc]
      by_cases hd : parts.getD 2 "" ≠ sanitizeFolderName unknownRaw
      · rw [if_pos hd]
        exact ⟨fun _ => ⟨parts, rfl, hc.2.1, hc.2.2, hd⟩, fun _ => rfl⟩
      · rw [if_neg hd]
        constructor
        · intro h; exact absurd h (by decide)
        · rintro ⟨parts2, hp2, h3, h4, h5⟩
          injection hp2 with e
          subst e
          exact absurd h5 hd
    · rw [if_neg hc]
      constructor
      · intro h; exact absurd h (by decide)
      · rintro ⟨parts2, hp2, h3, h4, h5⟩
        injection hp2 with e
        subst e
        refine absurd ⟨?_, h3, h4⟩ hc
        intro hnil
        rw [hnil] at h3
        simp at h3

/-- C5 witness: a processed file sitting at `out/2024-01-15/图片/Canon/f.jpg`
under output root `out` is skipped. -/
theorem c5_already_processed_witness :
    processFileAlreadyCheck ["k"] "k" ["out", "2024-01-15", "图片", "Canon", "f.jpg"] ["out"] "未知设备"
      = ProcessedDecision.skipAlready :=
  (c5_already_processed_iff ["k"] "k" ["out", "2024-01-15", "图片", "Canon", "f.jpg"] ["out"] "未知设备"
    (by decide)).mpr
    ⟨["2024-01-15", "图片", "Canon", "f.jpg"], by decide, by decide, by decide, by decide⟩

/-- True when a probe returned normally instead of raising. -/
def exceptIsOk : Except String (List (String × String)) → Bool
  | Except.ok _ => true
  | Except.error _ => false

/-- True when the resolution probe returned normally. -/
def resIsOk : Except String (Option (Nat × Nat)) → Bool
  | Except.ok _ => true
  | Except.error _ => false

lemma exiftoolGet_isOk (u e : Bool) (out : SubprocOutcome)
    (h : ∀ exc, out ≠ SubprocOutcome.raisedOther exc) :
    exceptIsOk (exiftoolGet u e out) = true := by
  unfold exiftoolGet
  split
  · rfl
  · cases out with
    | fileNotFound => rfl
    | timeoutExpired => rfl
    | raisedOther exc => exact absurd rfl (h exc)
    | completed rc se parse =>
      dsimp only
      split
      · rfl
      · cases parse <;> rfl

/-- C7 counterexample: when the external-tool invocation raises an
exception outside the caught trio (here a PermissionError launching the
binary), `_exiftool_get` does not swallow it — it escapes, and it also
escapes from `_get_resolution`, refuting "the probe never raises". -/
theorem c7_counterexample :
    exiftoolGet true true (SubprocOutcome.raisedOther "PermissionError")
      = Except.error "PermissionError" ∧
    getResolutionE "video" true true
        ⟨none, SubprocOutcome.raisedOther "PermissionError", none⟩
      = Except.error "PermissionError" := by
  exact ⟨rfl, rfl⟩

/-- C7 (amended): every modelled outcome of the external tool other than an
exception outside the caught trio is swallowed: missing binary, timeout,
nonzero exit, empty output and malformed JSON all yield a normal (empty)
result, and the resolution probe likewise returns normally whenever the
tool invocation does not raise an uncaught exception. -/
theorem c7_probe_failures :
    (∀ (u e : Bool) (out : SubprocOutcome), (∀ exc, out ≠ SubprocOutcome.raisedOther exc) →
      exceptIsOk (exiftoolGet u e out) = true) ∧
    (exiftoolGet true true SubprocOutcome.fileNotFound = Except.ok [] ∧
     exiftoolGet true true SubprocOutcome.timeoutExpired = Except.ok [] ∧
     ∀ (rc : Int) (se : Bool),
       exiftoolGet true true (SubprocOutcome.completed rc se ExifParse.decodeError) = Except.ok []) ∧
    (∀ (mt : String) (u e : Bool) (env : ResolutionEnv),
      (∀ exc, env.sub ≠ SubprocOutcome.raisedOther exc) →
      resIsOk (getResolutionE mt u e env) = true) := by
  refine ⟨exiftoolGet_isOk, ⟨rfl, rfl, ?_⟩, ?_⟩
  · intro rc se
    unfold exiftoolGet
    rw [if_neg (by decide)]
    dsimp only
    by_cases h : rc ≠ 0 ∨ se = true
    · rw [if_pos h]
    · rw [if_neg h]
  · intro mt u e env h
    unfold getResolutionE
    split
    · rfl
    · cases u with
      | false =>
        dsimp only
        rw [if_neg (by decide)]
        split
        · rename_i e2 heq
          simp at heq
        · rfl
        · split <;> rfl
      | true =>
        have hok := exiftoolGet_isOk true e env.sub h
        cases hget : exiftoolGet true e env.sub with
        | error e2 =>
          rw [hget] at hok
          simp [exceptIsOk] at hok
        | ok m =>
          dsimp only
          rw [if_pos rfl]
          split
          · rename_i e3 heq
            split at heq
            · simp at heq
            · split at heq
              · simp at heq
              · simp at heq
          · rfl
          · split <;> rfl

/-- C7 witness: a timeout is swallowed by the tag helper and by the
resolution probe. -/
theorem c7_probe_failures_witness :
    exceptIsOk (exiftoolGet true true SubprocOutcome.timeoutExpired) = true ∧
    resIsOk (getResolutionE "video" true true
      ⟨none, SubprocOutcome.timeoutExpired, some (1920, 1080)⟩) = true :=
  ⟨c7_probe_failures.1 true true SubprocOutcome.timeoutExpired
      (fun _ hx => SubprocOutcome.noConfusion hx),
   c7_probe_failures.2.2 "video" true true ⟨none, SubprocOutcome.timeoutExpired, some (1920, 1080)⟩
      (fun _ hx => SubprocOutcome.noConfusion hx)⟩

lemma relatedLoop_dry_world (hash : List Nat → Nat) (cfg : OrgConfig) (env : ProbeEnv)
    (td : String) (ub : Option String) :
    ∀ (rs : List MPath) (w : World) (st : CopyStats),
      (relatedLoop hash cfg env td ub true w st rs).1 = w := by
  intro rs
  induction rs with
  | nil => intro w st; rfl
  | cons r rest ih =>
    intro w st
    simp only [relatedLoop]
    split
    · exact ih _ _
    · exact ih _ _

lemma mediaLoop_dry_world (hash : List Nat → Nat) (cfg : OrgConfig) (env : ProbeEnv)
    (target : String) :
    ∀ (l : List MPath) (w : World) (st : CopyStats),
      (mediaLoop hash cfg env target true w st l).1 = w := by
  intro l
  induction l with
  | nil => intro w st; rfl
  | cons fp rest ih =>
    intro w st
    simp only [mediaLoop]
    split
    · exact ih _ _
    · split
      · exact ih _ _
      · exact (ih _ _).trans (relatedLoop_dry_world hash cfg env _ _ _ _ _)

lemma otherFilesLoop_dry_world (env : ProbeEnv) :
    ∀ (l : List (MPath × String × MPath)) (w : World) (st : CopyStats),
      (otherFilesLoop env true w st l).1 = w := by
  intro l
  induction l with
  | nil => intro w st; rfl
  | cons x rest ih =>
    intro w st
    obtain ⟨f, relStr, destFile⟩ := x
    simp only [otherFilesLoop]
    exact ih _ _

/-- C6 (amended): in dry-run mode the hash-verified copy pipeline changes no
file (nothing is copied, moved or deleted) and creates no directory except
that, whenever the source is valid, the target root directory itself is
created unconditionally before scanning. -/
theorem c6_dry_run_effects (hash : List Nat → Nat) (cfg : OrgConfig) (env : ProbeEnv)
    (w0 : World) (source target : String) :
    (∀ p, (superCopyAndOrganize hash cfg env w0 source target true).1.files p = w0.files p) ∧
    (superCopyAndOrganize hash cfg env w0 source target true).1.dirs
      = (if env.sourceValid = true then (mkdirDir w0 target).dirs else w0.dirs) := by
  cases hsv : env.sourceValid with
  | false =>
    constructor
    · intro p
      simp [superCopyAndOrganize, hsv]
    · simp [superCopyAndOrganize, hsv]
  | true =>
    have hfinal : (superCopyAndOrganize hash cfg env w0 source target true).1
        = mkdirDir w0 target := by
      simp only [superCopyAndOrganize, hsv]
      rw [if_neg (by decide)]
      split
      · rfl
      · rw [if_neg (by simp)]
        dsimp only
        rw [otherFilesLoop_dry_world, mediaLoop_dry_world]
    constructor
    · intro p
      rw [hfinal, mkdirDir_files]
    · rw [hfinal, if_pos rfl]

/-- An environment for an empty but valid source tree. -/
def envC6 : ProbeEnv :=
  ⟨fun _ => false, fun _ _ => none, fun _ => "", fun _ => "", fun _ => "",
   fun _ => none, fun _ _ => none, fun _ _ => "", id, [], fun _ => [],
   fun _ _ => CopyBehavior.landed none, fun _ _ => none, true, fun _ => true⟩

/-- An empty initial world. -/
def w0Empty : World := ⟨fun _ => none, []⟩

/-- C6 counterexample: a dry-run invocation on an empty source still creates
the target root directory, so the dry-run does perform filesystem I/O. -/
theorem c6_counterexample :
    w0Empty.dirs = [] ∧
    (superCopyAndOrganize (fun l => l.length) cfgDefault envC6 w0Empty "src" "tgt" true).1.dirs
      = ["tgt"] := by
  exact ⟨rfl, rfl⟩

/-- C3 (amended): when the copy step of the hash-verified copy raises (for
example disk full or permission denied), the per-file copy reports failure
with the exception text and the pipeline records the file in media_fail,
bumps the fail counter, and continues with the remaining files — but the
destination is left in whatever state the failed copy produced (an
incomplete destination file is NOT deleted; cleanup happens only for
digest failures and mismatches). -/
theorem c3_copy_error_no_cleanup (hash : List Nat → Nat) (cfg : OrgConfig) (env : ProbeEnv)
    (target : String) (w : World) (st : CopyStats) (fp : MPath) (rest : List MPath)
    (mt : String) (pd : MPath) (srcH : Nat) (msg : String) (residue : Option (Option (List Nat))) :
    getMediaType cfg (env.panoMeta fp) fp = some mt →
    resolveDestination cfg (fun p => (w.files p).isSome) env.realpath
      (planTargetDir cfg env target fp mt) fp (planUB cfg env fp mt) = some pd →
    computeFileHash hash w.files fp = some srcH →
    env.copyBehavior fp pd = CopyBehavior.raised msg residue →
    mediaLoop hash cfg env target false w st (fp :: rest)
      = mediaLoop hash cfg env target false
          ⟨fsSet w.files pd residue, (mkdirDir w pd.dir).dirs⟩
          { st with fail := st.fail + 1, mediaFail := st.mediaFail ++ [(fp, msg)] } rest ∧
    fsSet w.files pd residue pd = residue := by
  intro hmt hrd hsrc hcb
  have hw : worldCopyVerify hash env w fp pd false
      = (⟨fsSet w.files pd residue, (mkdirDir w pd.dir).dirs⟩, false, some msg) := by
    unfold worldCopyVerify
    rw [if_neg (by decide), hsrc]
    dsimp only
    unfold copyFileWithHashVerify
    rw [if_neg (by decide), mkdirDir_files, hsrc, hcb]
  constructor
  · simp only [mediaLoop]
    rw [hmt]
    dsimp only
    rw [hrd]
    dsimp only
    rw [hw]
    rfl
  · simp [fsSet]

/-- The single media file of the C3 run. -/
def f1C3 : MPath := ⟨"s", "a", ".mp4"⟩

/-- Initial world of the C3 run: only the source file exists. -/
def w0C3 : World := ⟨fun p => if p = f1C3 then some (some [1, 2, 3]) else none, []⟩

/-- Configuration of the C3 run: no related-file expansion, no device
subfolder, no external tool, plain naming. -/
def cfgC3 : OrgConfig :=
  ⟨[], [], [], [], false, "未知设备", "图片", "视频", "音频", "全景视频",
   false, "rename", false, false, false⟩

/-- Environment of the C3 run: the copy of the media file raises "disk
full" leaving the incomplete content `[1]` at the destination; the
residual-file copy succeeds. -/
def envC3 : ProbeEnv :=
  ⟨fun _ => false, fun _ _ => none, fun _ => "", fun _ => "", fun _ => "",
   fun _ => none, fun _ _ => none, fun _ _ => "", id, [f1C3], fun _ => [],
   fun _ _ => CopyBehavior.raised "disk full" (some (some [1])), fun _ _ => none, true,
   fun _ => true⟩

/-- C3 counterexample: after a copy I/O error the pipeline records the
failure and continues (the residual `.txt`-style sweep still copies the
file verbatim), but the incomplete destination file `[1]` is left in place
at the resolved destination — it is not cleaned up, refuting the claimed
deletion. -/
theorem c3_counterexample :
    (superCopyAndOrganize (fun l => l.length) cfgC3 envC3 w0C3 "s" "t" false).1.files
        ⟨"t/无日期/视频", "a", ".mp4"⟩ = some (some [1]) ∧
    (superCopyAndOrganize (fun l => l.length) cfgC3 envC3 w0C3 "s" "t" false).2.mediaFail
        = [(⟨"s", "a", ".mp4"⟩, "disk full")] ∧
    (superCopyAndOrganize (fun l => l.length) cfgC3 envC3 w0C3 "s" "t" false).2.fail = 1 ∧
    (superCopyAndOrganize (fun l => l.length) cfgC3 envC3 w0C3 "s" "t" false).2.otherOk
        = ["a.mp4"] := by
  refine ⟨?_, ?_, ?_, ?_⟩ <;> rfl

/-- C3 witness: the amended per-file behaviour applied to the concrete C3
run. -/
theorem c3_copy_error_witness :
    (mediaLoop (fun l => l.length) cfgC3 envC3 "t" false (mkdirDir w0C3 "t") emptyStats [f1C3]
      = mediaLoop (fun l => l.length) cfgC3 envC3 "t" false
          ⟨fsSet (mkdirDir w0C3 "t").files ⟨"t/无日期/视频", "a", ".mp4"⟩ (some (some [1])),
            (mkdirDir (mkdirDir w0C3 "t") (⟨"t/无日期/视频", "a", ".mp4"⟩ : MPath).dir).dirs⟩
          { emptyStats with
              fail := emptyStats.fail + 1,
              mediaFail := emptyStats.mediaFail ++ [(f1C3, "disk full")] } []) ∧
    fsSet (mkdirDir w0C3 "t").files ⟨"t/无日期/视频", "a", ".mp4"⟩ (some (some [1]))
        ⟨"t/无日期/视频", "a", ".mp4"⟩ = some (some [1]) :=
  c3_copy_error_no_cleanup (fun l => l.length) cfgC3 envC3 "t" (mkdirDir w0C3 "t") emptyStats
    f1C3 [] "video" ⟨"t/无日期/视频", "a", ".mp4"⟩ 3 "disk full" (some (some [1]))
    rfl rfl rfl rfl
